import Mathlib

/-!
Shallow embedding of the recurring-charge detection engine
(`analyzers/subscriptions.py`) and the debt payoff simulation engine
(`analyzers/debt.py`) of the money-manager repository, together with the
data models they use (`models/transaction.py`, `models/debt.py`).

Modelling conventions:
* Python floats are modelled as exact rationals (`ℚ`) where the source only
  performs field arithmetic on input data, and as real numbers (`ℝ`) where
  the source applies `math.sqrt` / `math.log` (`statistics.stdev`,
  the amortization formula).
* `datetime` values are modelled at day granularity as integers (`ℤ`);
  the source only ever uses day differences (`(d2 - d1).days`).
* Fallible code (Python code that can raise) is modelled with `Option`:
  `none` models an exception escaping the function
  (or, for `months_to_payoff`, the value `float('inf')`; each use site
  documents which).
* Record fields that the analyzed component never reads
  (e.g. `Transaction.description`, `DebtAccount.last_payment_date`) are
  omitted from the embedded structures.
-/

namespace MoneyManager

/-- Data model of `models/transaction.py` (`Transaction`), restricted to the
fields the detection engine reads: `date`, `merchant`, `amount`, `category`. -/
structure Transaction where
  date : ℤ
  merchant : String
  amount : ℚ
  category : String
  deriving DecidableEq

instance : Inhabited Transaction := ⟨⟨0, "", 0, ""⟩⟩

/-- `Transaction.is_expense`: `self.amount > 0`. -/
def Transaction.is_expense (t : Transaction) : Bool :=
  decide (t.amount > 0)

/-- The constructor filter of `SubscriptionDetector.__init__`:
`[t for t in transactions if t.is_expense and t.amount > 0]`. -/
def expenseTxs (txs : List Transaction) : List Transaction :=
  txs.filter (fun t => t.is_expense && decide (t.amount > 0))

/-- One step of building the `defaultdict(list)` used by `find_recurring`:
append transaction `t` to the group keyed by `m`, creating the key at the end
when absent (Python dicts preserve key insertion order). -/
def insertTxn (m : String) (t : Transaction) :
    List (String × List Transaction) → List (String × List Transaction)
  | [] => [(m, [t])]
  | (k, g) :: rest =>
      if k = m then (k, g ++ [t]) :: rest else (k, g) :: insertTxn m t rest

/-- `by_merchant` of `find_recurring`: group the (filtered) transactions by
merchant, keys in first-appearance order, each group in input order. -/
def groupByMerchant (txs : List Transaction) : List (String × List Transaction) :=
  txs.foldl (fun acc t => insertTxn t.merchant t acc) []

/-- Association-list lookup used to reason about `groupByMerchant`. -/
def lookupGroup (m : String) :
    List (String × List Transaction) → Option (List Transaction)
  | [] => none
  | (k, g) :: rest => if k = m then some g else lookupGroup m rest

/-- `txns_sorted = sorted(txns, key=lambda t: t.date)`: Python's `sorted` is a
stable merge sort, modelled by `List.mergeSort`. -/
def sortByDate (txns : List Transaction) : List Transaction :=
  txns.mergeSort (fun a b => decide (a.date ≤ b.date))

/-- The `intervals` loop of `find_recurring`: successive differences
`(txns_sorted[i+1].date - txns_sorted[i].date).days` of a date list. -/
def dateGaps : List ℤ → List ℤ
  | a :: b :: rest => (b - a) :: dateGaps (b :: rest)
  | _ => []

/-- `statistics.mean` on a list of integers (day gaps): the exact rational
mean.  The source only calls it on non-empty lists (`statistics.mean` raises
on empty input; every call site is guarded). -/
def listMean (l : List ℤ) : ℚ :=
  (l.sum : ℚ) / l.length

/-- `statistics.mean` on a list of rationals (amounts). -/
def qMean (l : List ℚ) : ℚ :=
  l.sum / l.length

/-- The square of `statistics.stdev`: sample variance with Bessel's
correction, `Σ (x - mean)² / (n - 1)`.  Only meaningful for `2 ≤ n`; every
use is guarded by the source's `if len(intervals) > 1` check. -/
def sampleVariance (l : List ℤ) : ℚ :=
  (l.map (fun x => ((x : ℚ) - listMean l) ^ 2)).sum / ((l.length : ℚ) - 1)

/-- `std_interval = statistics.stdev(intervals) if len(intervals) > 1 else 0`
from `find_recurring`. -/
noncomputable def stdevGaps (l : List ℤ) : ℝ :=
  if 1 < l.length then Real.sqrt ((sampleVariance l : ℚ) : ℝ) else 0

/-- Python's `max` over a non-empty list (`max(amounts)`); the empty case is
unreachable in the source (guarded by the non-empty-intervals check). -/
def listMax : List ℚ → ℚ
  | [] => 0
  | a :: rest => rest.foldl max a

/-- Python's `min` over a non-empty list (`min(amounts)`). -/
def listMin : List ℚ → ℚ
  | [] => 0
  | a :: rest => rest.foldl min a

/-- The interval labels produced by `_classify_interval`. -/
inductive IntervalLabel where
  | weekly
  | biWeekly
  | monthly
  | quarterly
  | annual
  /-- The fallback label `f"every {days:.0f} days"`, keyed by the rounded
  day count. -/
  | everyN (n : ℤ)
  deriving DecidableEq

/-- Round half to even, the rounding used by Python's `f"{days:.0f}"`
format: exact halves round to the even neighbour. -/
def roundHalfEven (q : ℚ) : ℤ :=
  let f := ⌊q⌋
  let r := q - f
  if r < 1/2 then f
  else if 1/2 < r then f + 1
  else if f % 2 = 0 then f else f + 1

/-- `SubscriptionDetector._classify_interval`. -/
def classifyInterval (days : ℚ) : IntervalLabel :=
  if 6 ≤ days ∧ days ≤ 8 then .weekly
  else if 13 ≤ days ∧ days ≤ 15 then .biWeekly
  else if 27 ≤ days ∧ days ≤ 31 then .monthly
  else if 89 ≤ days ∧ days ≤ 92 then .quarterly
  else if 364 ≤ days ∧ days ≤ 366 then .annual
  else .everyN (roundHalfEven days)

/-- `SubscriptionDetector._calculate_confidence`. -/
noncomputable def calcConfidence (count : ℕ) (std_dev : ℝ) (amount_var : ℝ) : ℝ :=
  min ((count : ℝ) / 10) 1 * 50
    + (1 - min (std_dev / 10) 1) * 30
    + (1 - amount_var) * 20

/-- The record `find_recurring` builds for a qualifying merchant (the dict
stored in `recurring[merchant]`). -/
structure RecurringEntry where
  merchant : String
  amount : ℚ
  amount_min : ℚ
  amount_max : ℚ
  count : ℕ
  interval_days : ℚ
  interval_type : IntervalLabel
  std_dev_days : ℝ
  category : String
  first_date : ℤ
  last_date : ℤ
  transactions : List Transaction
  confidence : ℝ

/-- The record `find_recurring` stores in `recurring[merchant]` for a group
that survived all gates; `s` is the group already sorted by date. -/
noncomputable def groupEntry (merchant : String) (s : List Transaction) :
    RecurringEntry :=
  let intervals := dateGaps (s.map (·.date))
  let avg_interval := listMean intervals
  let std_interval := stdevGaps intervals
  let amounts := s.map (·.amount)
  let avg_amount := qMean amounts
  let max_amount := listMax amounts
  let min_amount := listMin amounts
  let amount_variance := (max_amount - min_amount) / avg_amount
  { merchant := merchant
    amount := avg_amount
    amount_min := min_amount
    amount_max := max_amount
    count := s.length
    interval_days := avg_interval
    interval_type := classifyInterval avg_interval
    std_dev_days := std_interval
    category := s.headI.category
    first_date := s.headI.date
    last_date := s.getLastI.date
    transactions := s
    confidence := calcConfidence s.length std_interval
      ((amount_variance : ℚ) : ℝ) }

/-- The body of the per-merchant loop of `find_recurring`: either reject the
group at one of the gates (`none`) or build its `RecurringEntry`. -/
noncomputable def processGroup (min_occurrences : ℕ) (amount_tolerance : ℚ)
    (merchant : String) (txns : List Transaction) :
    Option (String × RecurringEntry) :=
  if txns.length < min_occurrences then none
  else
    let txns_sorted := sortByDate txns
    let intervals := dateGaps (txns_sorted.map (·.date))
    if intervals = [] then none
    else if (listMean intervals : ℝ) * 0.50 < stdevGaps intervals then none
    else
      let amounts := txns_sorted.map (·.amount)
      if amount_tolerance
          < (listMax amounts - listMin amounts) / qMean amounts then none
      else some (merchant, groupEntry merchant txns_sorted)

/-- The final `sorted(recurring.items(), key=..confidence, reverse=True)`
of `find_recurring` (stable, descending by confidence). -/
noncomputable def sortByConfidence (l : List (String × RecurringEntry)) :
    List (String × RecurringEntry) :=
  l.mergeSort (fun a b => decide (b.2.confidence ≤ a.2.confidence))

/-- `SubscriptionDetector.find_recurring` (defaults: `min_occurrences = 3`,
`amount_tolerance = 0.05`, `day_variance = 3`).  The `day_variance` parameter
is accepted and ignored, as in the source. -/
noncomputable def find_recurring (txs : List Transaction) (min_occurrences : ℕ)
    (amount_tolerance : ℚ) (day_variance : ℕ) :
    List (String × RecurringEntry) :=
  let _ := day_variance
  sortByConfidence
    ((groupByMerchant (expenseTxs txs)).filterMap
      (fun p => processGroup min_occurrences amount_tolerance p.1 p.2))

/-- `SubscriptionDetector.estimated_monthly_recurring`.  The running total
accumulates `data["amount"] * (30 / interval_days)` per detected charge;
`none` models the `ZeroDivisionError` raised by `30 / interval_days` when a
group's mean interval is zero. -/
noncomputable def estimated_monthly_recurring (txs : List Transaction) : Option ℚ :=
  (find_recurring txs 3 0.05 3).foldl
    (fun acc p =>
      acc.bind (fun total =>
        if p.2.interval_days = 0 then none
        else some (total + p.2.amount * (30 / p.2.interval_days))))
    (some 0)

/-- One flagged record of `analyze_gaps`. -/
structure GapEntry where
  merchant : String
  last_occurrence : ℤ
  days_since : ℤ
  expected_interval : ℚ
  status : String
  avg_monthly_impact : ℚ
  deriving DecidableEq

/-- `SubscriptionDetector.analyze_gaps`.  Returns `none` when the source
raises: `max(t.date for t in self.transactions)` raises `ValueError` on an
empty (filtered) transaction list, and `data["amount"] * (30 /
expected_interval)` raises `ZeroDivisionError` when a flagged group has a
zero mean interval.  Otherwise returns the flagged records sorted by
`days_since` descending. -/
noncomputable def analyze_gaps (txs : List Transaction) : Option (List GapEntry) :=
  match ((expenseTxs txs).map (·.date)).max? with
  | none => none
  | some today =>
      ((find_recurring txs 2 0.05 3).mapM
          (fun p =>
            let days_since := today - p.2.last_date
            if (p.2.interval_days * 1.5 : ℚ) < (days_since : ℚ) then
              if p.2.interval_days = 0 then none
              else
                some [{ merchant := p.1
                        last_occurrence := p.2.last_date
                        days_since := days_since
                        expected_interval := p.2.interval_days
                        status := "possibly cancelled"
                        avg_monthly_impact :=
                          p.2.amount * (30 / p.2.interval_days) }]
            else some ([] : List GapEntry))).map
        (fun ls => ls.flatten.mergeSort (fun a b => decide (b.days_since ≤ a.days_since)))

/-- The merchant's transaction group inside the detector: the filtered
transactions whose merchant is `m`, in input order (this is what
`by_merchant[m]` holds). -/
def merchantGroup (txs : List Transaction) (m : String) : List Transaction :=
  (expenseTxs txs).filter (fun t => decide (t.merchant = m))

/-- The merchant's group sorted by date. -/
def merchantTimeline (txs : List Transaction) (m : String) : List Transaction :=
  sortByDate (merchantGroup txs m)

/-- The inter-occurrence day gaps of the merchant's date-sorted group. -/
def merchantGaps (txs : List Transaction) (m : String) : List ℤ :=
  dateGaps ((merchantTimeline txs m).map (·.date))

/-- The amounts of the merchant's date-sorted group. -/
def merchantAmounts (txs : List Transaction) (m : String) : List ℚ :=
  (merchantTimeline txs m).map (·.amount)

/-- Combinator describing how one merchant's group grows while folding
`insertTxn` over a transaction list: `o` is the group so far (if the key
exists), `l` the matching transactions still to come. -/
def joinGroup (o : Option (List Transaction)) (l : List Transaction) :
    Option (List Transaction) :=
  match o with
  | some g => some (g ++ l)
  | none => if l = [] then none else some l

/-- Data model of `models/debt.py` (`DebtAccount`), restricted to the fields
the payoff simulator reads. -/
structure DebtAccount where
  name : String
  account_type : String
  current_balance : ℚ
  credit_limit : Option ℚ := none
  interest_rate : ℚ := 0
  minimum_payment : ℚ := 0
  deriving DecidableEq

/-- `DebtAccount.monthly_interest_rate`: `self.interest_rate / 12`. -/
def DebtAccount.monthly_interest_rate (a : DebtAccount) : ℚ :=
  a.interest_rate / 12

/-- `DebtAnalyzer._months_to_payoff`, over the reals.  `none` models
`float('inf')`.  The bare `except` returning infinity is reachable exactly
when `math.log(1 + monthly_rate)` raises on a non-positive argument, hence
the `1 + monthly_rate ≤ 0` branch; `max(0, months)` is kept as in the
source. -/
noncomputable def months_to_payoff (balance monthly_payment monthly_rate : ℝ) :
    Option ℝ :=
  if monthly_payment ≤ 0 then none
  else if monthly_rate = 0 then some (balance / monthly_payment)
  else
    let numerator := 1 - balance * monthly_rate / monthly_payment
    if numerator ≤ 0 then none
    else if 1 + monthly_rate ≤ 0 then none
    else some (max 0 (-Real.log numerator / Real.log (1 + monthly_rate)))

/-- One entry of the list returned by the strategies (the dict appended to
`strategy`).  `interest_rate` is stored as a percentage (`rate * 100`), and
`months_to_payoff` may be `none` (`float('inf')`), as in the source. -/
structure PlanEntry where
  account : String
  current_balance : ℚ
  interest_rate : ℚ
  monthly_payment : ℚ
  months_to_payoff : Option ℝ
  priority : ℕ
  rationale : String

/-- `sorted(self.accounts, key=lambda x: x.interest_rate, reverse=True)`
from `avalanche_strategy` (stable). -/
def sortByRateDesc (accounts : List DebtAccount) : List DebtAccount :=
  accounts.mergeSort (fun a b => decide (b.interest_rate ≤ a.interest_rate))

/-- `sorted(self.accounts, key=lambda x: x.current_balance)` from
`snowball_strategy` (stable). -/
def sortByBalanceAsc (accounts : List DebtAccount) : List DebtAccount :=
  accounts.mergeSort (fun a b => decide (a.current_balance ≤ b.current_balance))

/-- `sum(a.minimum_payment for a in self.accounts)`. -/
def totalMinPayments (accounts : List DebtAccount) : ℚ :=
  (accounts.map (·.minimum_payment)).sum

/-- The shared loop body of both strategies: entry `i` of the enumerated
sorted account list, where index `0` receives the whole surplus. -/
noncomputable def strategyEntry (accounts : List DebtAccount)
    (monthly_payment : ℚ) (rationale : String) (p : ℕ × DebtAccount) : PlanEntry :=
  let total_payment :=
    if p.1 = 0 then
      p.2.minimum_payment + (monthly_payment - totalMinPayments accounts)
    else p.2.minimum_payment
  { account := p.2.name
    current_balance := p.2.current_balance
    interest_rate := p.2.interest_rate * 100
    monthly_payment := total_payment
    months_to_payoff :=
      months_to_payoff (p.2.current_balance : ℝ) (total_payment : ℝ)
        ((p.2.monthly_interest_rate : ℚ) : ℝ)
    priority := p.1 + 1
    rationale := rationale }

/-- `DebtAnalyzer.avalanche_strategy`. -/
noncomputable def avalanche_strategy (accounts : List DebtAccount)
    (monthly_payment : ℚ) : List PlanEntry :=
  if monthly_payment ≤ 0 then []
  else
    (sortByRateDesc accounts).enum.map
      (strategyEntry accounts monthly_payment
        "highest interest rate first (saves most interest)")

/-- `DebtAnalyzer.snowball_strategy`. -/
noncomputable def snowball_strategy (accounts : List DebtAccount)
    (monthly_payment : ℚ) : List PlanEntry :=
  if monthly_payment ≤ 0 then []
  else
    (sortByBalanceAsc accounts).enum.map
      (strategyEntry accounts monthly_payment
        "smallest balance first (psychological wins)")

/-- The inner `for _ in range(...)` loop of `_project_total_interest`:
accumulate one month of interest per iteration, stopping early once the
remaining balance drops to zero or below. -/
def interestLoop (rate payment : ℚ) : ℕ → ℚ → ℚ → ℚ
  | 0, _, total => total
  | n + 1, remaining, total =>
      let interest := remaining * rate
      if remaining - (payment - interest) ≤ 0 then total + interest
      else interestLoop rate payment n (remaining - (payment - interest)) (total + interest)

/-- `DebtAnalyzer._project_total_interest`.  The `months` argument of the
source function is never read and is omitted.  `none` models the
`OverflowError` raised by `int(item["months_to_payoff"])` when an item's
months-to-payoff is `float('inf')`; for a finite value `m ≥ 0`, `int(m)`
truncates, giving `⌊m⌋.toNat` loop iterations (for a negative `m`,
`range(int(m))` is empty, matching `toNat`). -/
noncomputable def project_total_interest (plan : List PlanEntry) : Option ℚ :=
  plan.foldl
    (fun acc item =>
      acc.bind (fun total =>
        match item.months_to_payoff with
        | none => none
        | some m =>
            some (interestLoop (item.interest_rate / 100 / 12)
              item.monthly_payment ⌊m⌋.toNat item.current_balance total)))
    (some 0)

/-- Python's `max` over the `months_to_payoff` values of a plan, where
`none` (`float('inf')`) dominates; the empty case yields `0`, matching
`max(...) if plan else 0`. -/
noncomputable def planMaxMonths : List PlanEntry → Option ℝ
  | [] => some 0
  | p :: ps =>
      ps.foldl
        (fun acc q =>
          match acc, q.months_to_payoff with
          | none, _ => none
          | _, none => none
          | some x, some y => some (max x y))
        p.months_to_payoff

/-- The dict returned by `payoff_timeline` for a known strategy. -/
structure PayoffTimeline where
  strategy : String
  monthly_payment : ℚ
  months_to_debt_free : Option ℝ
  years_to_debt_free : Option ℝ
  projected_total_interest : ℚ
  payoff_plan : List PlanEntry

/-- The result of `payoff_timeline`: either the empty dict (unknown
strategy) or a full timeline. -/
inductive TimelineResult where
  | emptyDict
  | result (t : PayoffTimeline)

/-- The tail of `payoff_timeline` after the plan has been computed.  `none`
models an exception escaping (the `OverflowError` from
`_project_total_interest`). -/
noncomputable def timelineFromPlan (strategy : String) (monthly_payment : ℚ)
    (plan : List PlanEntry) : Option TimelineResult :=
  let total_months := planMaxMonths plan
  match project_total_interest plan with
  | none => none
  | some ti =>
      some (.result
        { strategy := strategy
          monthly_payment := monthly_payment
          months_to_debt_free := total_months
          years_to_debt_free := total_months.map (· / 12)
          projected_total_interest := ti
          payoff_plan := plan })

/-- `DebtAnalyzer.payoff_timeline`. -/
noncomputable def payoff_timeline (accounts : List DebtAccount)
    (monthly_payment : ℚ) (strategy : String) : Option TimelineResult :=
  if strategy = "avalanche" then
    timelineFromPlan "avalanche" monthly_payment
      (avalanche_strategy accounts monthly_payment)
  else if strategy = "snowball" then
    timelineFromPlan "snowball" monthly_payment
      (snowball_strategy accounts monthly_payment)
  else some .emptyDict

/-! ### Concrete fixtures used by witnesses and counterexamples -/

/-- Three monthly charges of 15 from merchant `"A"` (days 0, 30, 60). -/
def txs3 : List Transaction :=
  [⟨0, "A", 15, "Entertainment"⟩, ⟨30, "A", 15, "Entertainment"⟩,
   ⟨60, "A", 15, "Entertainment"⟩]

/-- Three same-day charges of 12 from merchant `"A"` (all on day 10): a
detected group whose gaps are all zero. -/
def txs0 : List Transaction :=
  [⟨10, "A", 12, "Music"⟩, ⟨10, "A", 12, "Music"⟩, ⟨10, "A", 12, "Music"⟩]

/-- Merchant `"A"` charged on days 0 and 30 only, while merchant `"B"`'s
last transaction (day 100) sets "today". -/
def txsG : List Transaction :=
  [⟨0, "A", 10, "Sub"⟩, ⟨30, "A", 10, "Sub"⟩, ⟨100, "B", 5, "Coffee"⟩]

/-- The `"A"`-group of `txsG`. -/
def grpGA : List Transaction := [⟨0, "A", 10, "Sub"⟩, ⟨30, "A", 10, "Sub"⟩]

/-- Merchant `"A"` with gaps 20, 40, 30 (variance 100, stdev 10, mean 30)
and amounts 1, 1, 1, 100: passes the gates for `amount_tolerance = 4`
with amount variance `396/103 > 1`. -/
def txs7 : List Transaction :=
  [⟨0, "A", 1, "Misc"⟩, ⟨20, "A", 1, "Misc"⟩, ⟨60, "A", 1, "Misc"⟩,
   ⟨90, "A", 100, "Misc"⟩]

/-- A credit card whose minimum payment (10) does not cover its monthly
interest (`1000 * 0.24/12 = 20`). -/
def acctX : DebtAccount :=
  ⟨"X", "credit_card", 1000, none, 0.24, 10⟩

/-! ### Lemmas about merchant grouping -/

theorem lookupGroup_insertTxn_self (m : String) (t : Transaction) :
    ∀ acc, lookupGroup m (insertTxn m t acc)
      = some ((lookupGroup m acc).getD [] ++ [t])
  | [] => by simp [insertTxn, lookupGroup]
  | (k, g) :: rest => by
    by_cases hk : k = m
    · subst hk
      simp [insertTxn, lookupGroup]
    · simp only [insertTxn, if_neg hk, lookupGroup]
      exact lookupGroup_insertTxn_self m t rest

theorem lookupGroup_insertTxn_ne {m m' : String} (h : m' ≠ m) (t : Transaction) :
    ∀ acc, lookupGroup m' (insertTxn m t acc) = lookupGroup m' acc
  | [] => by simp [insertTxn, lookupGroup, Ne.symm h]
  | (k, g) :: rest => by
    by_cases hk : k = m
    · subst hk
      simp [insertTxn, lookupGroup, Ne.symm h]
    · simp only [insertTxn, if_neg hk, lookupGroup]
      by_cases hk2 : k = m'
      · simp [hk2]
      · rw [if_neg hk2, if_neg hk2]
        exact lookupGroup_insertTxn_ne h t rest

theorem joinGroup_nil (o : Option (List Transaction)) : joinGroup o [] = o := by
  cases o <;> simp [joinGroup]

theorem joinGroup_cons (o : Option (List Transaction)) (t : Transaction)
    (l : List Transaction) :
    joinGroup o (t :: l) = joinGroup (some (o.getD [] ++ [t])) l := by
  cases o <;> simp [joinGroup]

theorem lookupGroup_foldl_insert (m : String) :
    ∀ (l : List Transaction) (acc : List (String × List Transaction)),
      lookupGroup m (l.foldl (fun a t => insertTxn t.merchant t a) acc)
        = joinGroup (lookupGroup m acc)
            (l.filter (fun t => decide (t.merchant = m)))
  | [], acc => by simp [joinGroup_nil]
  | t :: l, acc => by
    rw [List.foldl_cons, lookupGroup_foldl_insert m l]
    by_cases hm : t.merchant = m
    · rw [List.filter_cons_of_pos (by simpa using hm), joinGroup_cons]
      subst hm
      rw [lookupGroup_insertTxn_self]
    · rw [List.filter_cons_of_neg (by simpa using hm)]
      rw [lookupGroup_insertTxn_ne (fun h => hm h.symm)]

theorem lookupGroup_groupByMerchant (txs : List Transaction) (m : String) :
    lookupGroup m (groupByMerchant txs)
      = if txs.filter (fun t => decide (t.merchant = m)) = [] then none
        else some (txs.filter (fun t => decide (t.merchant = m))) := by
  rw [groupByMerchant, lookupGroup_foldl_insert]
  simp [lookupGroup, joinGroup]

theorem lookupGroup_eq_none_iff (m : String) :
    ∀ acc, lookupGroup m acc = none ↔ m ∉ acc.map Prod.fst
  | [] => by simp [lookupGroup]
  | (k, g) :: rest => by
    by_cases hk : k = m
    · subst hk
      simp [lookupGroup]
    · simp only [lookupGroup, if_neg hk, List.map_cons, List.mem_cons]
      rw [lookupGroup_eq_none_iff m rest]
      constructor
      · rintro h (h1 | h2)
        · exact hk h1.symm
        · exact h h2
      · intro h h2
        exact h (Or.inr h2)

theorem keys_insertTxn (m : String) (t : Transaction) :
    ∀ acc, (insertTxn m t acc).map Prod.fst
      = acc.map Prod.fst ++ (if m ∈ acc.map Prod.fst then [] else [m])
  | [] => by simp [insertTxn]
  | (k, g) :: rest => by
    by_cases hk : k = m
    · subst hk
      simp [insertTxn]
    · simp only [insertTxn, if_neg hk, List.map_cons, List.mem_cons]
      rw [keys_insertTxn m t rest]
      have hmk : m ≠ k := fun h => hk h.symm
      by_cases hmem : m ∈ rest.map Prod.fst
      · simp [hmem, hmk]
      · simp [hmem, hmk]

theorem nodup_keys_insertTxn (m : String) (t : Transaction)
    (acc : List (String × List Transaction))
    (h : (acc.map Prod.fst).Nodup) : ((insertTxn m t acc).map Prod.fst).Nodup := by
  rw [keys_insertTxn]
  by_cases hmem : m ∈ acc.map Prod.fst
  · simpa [hmem] using h
  · simp only [if_neg hmem]
    refine List.Nodup.append h (List.nodup_singleton m) ?_
    intro x hx hxm
    rw [List.mem_singleton] at hxm
    subst hxm
    exact hmem hx

theorem nodup_keys_groupByMerchant (txs : List Transaction) :
    ((groupByMerchant txs).map Prod.fst).Nodup := by
  rw [groupByMerchant]
  have : ∀ (l : List Transaction) (acc : List (String × List Transaction)),
      (acc.map Prod.fst).Nodup →
      ((l.foldl (fun a t => insertTxn t.merchant t a) acc).map Prod.fst).Nodup := by
    intro l
    induction l with
    | nil => intro acc h; simpa using h
    | cons t l ih =>
        intro acc h
        rw [List.foldl_cons]
        exact ih _ (nodup_keys_insertTxn _ _ _ h)
  exact this txs [] (by simp)

theorem mem_of_lookupGroup_eq_some {m : String} {g : List Transaction} :
    ∀ {acc}, lookupGroup m acc = some g → (m, g) ∈ acc := by
  intro acc
  induction acc with
  | nil => simp [lookupGroup]
  | cons p rest ih =>
      obtain ⟨k, g'⟩ := p
      intro h
      simp only [lookupGroup] at h
      split at h
      · rename_i hk
        subst hk
        obtain rfl := Option.some.inj h
        exact List.mem_cons_self _ _
      · exact List.mem_cons_of_mem _ (ih h)

theorem lookupGroup_eq_some_of_mem {m : String} {g : List Transaction} :
    ∀ {acc}, (acc.map Prod.fst).Nodup → (m, g) ∈ acc → lookupGroup m acc = some g := by
  intro acc
  induction acc with
  | nil => simp
  | cons p rest ih =>
      obtain ⟨k, g'⟩ := p
      intro hnd hmem
      rcases List.mem_cons.mp hmem with h | h
      · injection h with h1 h2
        subst h1
        subst h2
        simp [lookupGroup]
      · have hk : k ≠ m := by
          rintro rfl
          have : k ∈ rest.map Prod.fst := by
            exact List.mem_map_of_mem Prod.fst h
          simp only [List.map_cons, List.nodup_cons] at hnd
          exact hnd.1 this
        simp only [lookupGroup, if_neg hk]
        exact ih (by simpa using hnd.of_cons) h

theorem mem_groupByMerchant_iff {txs : List Transaction} {m : String}
    {g : List Transaction} :
    (m, g) ∈ groupByMerchant txs
      ↔ (g = txs.filter (fun t => decide (t.merchant = m)) ∧ g ≠ []) := by
  constructor
  · intro h
    have hl := lookupGroup_eq_some_of_mem (nodup_keys_groupByMerchant txs) h
    rw [lookupGroup_groupByMerchant] at hl
    by_cases he : txs.filter (fun t => decide (t.merchant = m)) = []
    · rw [if_pos he] at hl; exact absurd hl (by simp)
    · rw [if_neg he] at hl
      have hg := (Option.some.inj hl).symm
      exact ⟨hg, by rw [hg]; exact he⟩
  · rintro ⟨rfl, hne⟩
    apply mem_of_lookupGroup_eq_some
    rw [lookupGroup_groupByMerchant, if_neg hne]

theorem dateGaps_ne_nil_iff (l : List ℤ) : dateGaps l ≠ [] ↔ 2 ≤ l.length := by
  match l with
  | [] => simp [dateGaps]
  | [a] => simp [dateGaps]
  | a :: b :: rest => simp [dateGaps]

theorem length_sortByDate (g : List Transaction) :
    (sortByDate g).length = g.length := by
  simp [sortByDate]

/-- Characterization of the per-group loop body: it returns `some` exactly
when the group passes the occurrence-count gate, has at least one gap, and
passes the interval-consistency and amount-consistency gates, and then the
returned pair is the merchant with its `groupEntry`. -/
theorem processGroup_eq_some_iff {mo : ℕ} {tol : ℚ} {k : String}
    {g : List Transaction} {p : String × RecurringEntry} :
    processGroup mo tol k g = some p ↔
      (mo ≤ g.length ∧
       dateGaps ((sortByDate g).map (·.date)) ≠ [] ∧
       stdevGaps (dateGaps ((sortByDate g).map (·.date)))
         ≤ (listMean (dateGaps ((sortByDate g).map (·.date))) : ℝ) * 0.50 ∧
       (listMax ((sortByDate g).map (·.amount))
           - listMin ((sortByDate g).map (·.amount)))
         / qMean ((sortByDate g).map (·.amount)) ≤ tol ∧
       p = (k, groupEntry k (sortByDate g))) := by
  simp only [processGroup]
  split_ifs with h1 h2 h3 h4
  · constructor
    · intro h; exact absurd h (by simp)
    · rintro ⟨hmo, -⟩
      exact absurd hmo (not_le.mpr h1)
  · constructor
    · intro h; exact absurd h (by simp)
    · rintro ⟨-, hne, -⟩
      exact hne h2
  · constructor
    · intro h; exact absurd h (by simp)
    · rintro ⟨-, -, hstd, -⟩
      exact absurd hstd (not_le.mpr h3)
  · constructor
    · intro h; exact absurd h (by simp)
    · rintro ⟨-, -, -, hamt, -⟩
      exact absurd hamt (not_le.mpr h4)
  · simp only [Option.some.injEq]
    constructor
    · intro h
      exact ⟨not_lt.mp h1, h2, not_lt.mp h3, not_lt.mp h4, h.symm⟩
    · rintro ⟨-, -, -, -, rfl⟩
      rfl

/-- Membership in the `find_recurring` result, reduced to the merchant's own
filtered group. -/
theorem mem_find_recurring_iff {txs : List Transaction} {mo : ℕ} {tol : ℚ}
    {dv : ℕ} {m : String} {e : RecurringEntry} :
    (m, e) ∈ find_recurring txs mo tol dv ↔
      (merchantGroup txs m ≠ [] ∧
       processGroup mo tol m (merchantGroup txs m) = some (m, e)) := by
  rw [find_recurring]
  simp only [sortByConfidence, List.mem_mergeSort, List.mem_filterMap]
  constructor
  · rintro ⟨⟨k, g⟩, hmem, hp⟩
    have hk : k = m := by
      have := (processGroup_eq_some_iff.mp hp).2.2.2.2
      exact (congrArg Prod.fst this).symm
    subst hk
    obtain ⟨hg, hne⟩ := mem_groupByMerchant_iff.mp hmem
    rw [hg] at hp hne
    exact ⟨hne, hp⟩
  · rintro ⟨hne, hp⟩
    refine ⟨(m, merchantGroup txs m), ?_, hp⟩
    exact mem_groupByMerchant_iff.mpr ⟨rfl, hne⟩

/-- C1: for every list of expense transactions and every `min_occurrences`
and `amount_tolerance`, a merchant appears in the result of
`find_recurring` if and only if its transaction group has at least
`min_occurrences` members, at least one inter-occurrence gap, sample
standard deviation of the day gaps at most `0.5` times the mean gap, and
amount range (max - min) divided by mean amount at most
`amount_tolerance`. -/
theorem find_recurring_merchant_iff_gates (txs : List Transaction) (mo : ℕ)
    (tol : ℚ) (dv : ℕ) (m : String) :
    (∃ e, (m, e) ∈ find_recurring txs mo tol dv) ↔
      (mo ≤ (merchantGroup txs m).length ∧
       merchantGaps txs m ≠ [] ∧
       stdevGaps (merchantGaps txs m)
         ≤ 0.5 * (listMean (merchantGaps txs m) : ℝ) ∧
       (listMax (merchantAmounts txs m) - listMin (merchantAmounts txs m))
         / qMean (merchantAmounts txs m) ≤ tol) := by
  have hhalf : ∀ x : ℝ, (0.5 : ℝ) * x = x * 0.50 := by intro x; norm_num [mul_comm]
  constructor
  · rintro ⟨e, he⟩
    obtain ⟨-, hp⟩ := mem_find_recurring_iff.mp he
    obtain ⟨h1, h2, h3, h4, -⟩ := processGroup_eq_some_iff.mp hp
    refine ⟨h1, h2, ?_, h4⟩
    rw [merchantGaps, merchantTimeline, hhalf]
    exact h3
  · rintro ⟨h1, h2, h3, h4⟩
    rw [merchantGaps, merchantTimeline] at h2 h3
    rw [merchantAmounts, merchantTimeline] at h4
    have hne : merchantGroup txs m ≠ [] := by
      intro hnil
      have hlen := (dateGaps_ne_nil_iff _).mp h2
      rw [hnil] at hlen
      simp [sortByDate] at hlen
    refine ⟨groupEntry m (sortByDate (merchantGroup txs m)),
      mem_find_recurring_iff.mpr ⟨hne, processGroup_eq_some_iff.mpr
        ⟨h1, h2, ?_, h4, rfl⟩⟩⟩
    rw [← hhalf]
    exact h3

/-- C6: `_classify_interval` uses the inclusive day ranges weekly `[6,8]`,
bi-weekly `[13,15]`, monthly `[27,31]`, quarterly `[89,92]`, annual
`[364,366]`, and otherwise the generic label built from the rounded day
count; in particular 9 days and 32 days fall to the generic label. -/
theorem classifyInterval_ranges (d : ℚ) :
    (classifyInterval d = .weekly ↔ (6 ≤ d ∧ d ≤ 8)) ∧
    (classifyInterval d = .biWeekly ↔ (13 ≤ d ∧ d ≤ 15)) ∧
    (classifyInterval d = .monthly ↔ (27 ≤ d ∧ d ≤ 31)) ∧
    (classifyInterval d = .quarterly ↔ (89 ≤ d ∧ d ≤ 92)) ∧
    (classifyInterval d = .annual ↔ (364 ≤ d ∧ d ≤ 366)) ∧
    (classifyInterval d = .everyN (roundHalfEven d) ↔
      (¬(6 ≤ d ∧ d ≤ 8) ∧ ¬(13 ≤ d ∧ d ≤ 15) ∧ ¬(27 ≤ d ∧ d ≤ 31) ∧
       ¬(89 ≤ d ∧ d ≤ 92) ∧ ¬(364 ≤ d ∧ d ≤ 366))) ∧
    classifyInterval 9 = .everyN 9 ∧ classifyInterval 32 = .everyN 32 := by
  refine ⟨?_, ?_, ?_, ?_, ?_, ?_,
      by norm_num [classifyInterval, roundHalfEven],
      by norm_num [classifyInterval, roundHalfEven]⟩ <;>
    (unfold classifyInterval; split_ifs with h1 h2 h3 h4 h5 <;> simp_all) <;>
    intros <;>
    first
    | linarith [h1.1, h1.2]
    | linarith [h2.1, h2.2]
    | linarith [h3.1, h3.2]
    | linarith [h4.1, h4.2]

/-- C4: the `_months_to_payoff` case analysis, for `B ≥ 0` and `r ≥ 0`:
`B / P` when `r = 0` and `P > 0`; infinity (`none`) when `P ≤ 0` or
`1 - B*r/P ≤ 0`; otherwise `-ln(1 - B*r/P) / ln(1 + r)` (the `max(0, ·)`
of the source is the identity there). -/
theorem months_to_payoff_cases (B P r : ℝ) (hB : 0 ≤ B) (hr : 0 ≤ r) :
    ((r = 0 ∧ 0 < P) → months_to_payoff B P r = some (B / P)) ∧
    ((P ≤ 0 ∨ 1 - B * r / P ≤ 0) → months_to_payoff B P r = none) ∧
    ((0 < P ∧ r ≠ 0 ∧ 0 < 1 - B * r / P) →
      months_to_payoff B P r
        = some (-Real.log (1 - B * r / P) / Real.log (1 + r))) := by
  refine ⟨?_, ?_, ?_⟩
  · rintro ⟨rfl, hP⟩
    rw [months_to_payoff, if_neg (not_le.mpr hP), if_pos rfl]
  · rintro (hP | hnum)
    · rw [months_to_payoff, if_pos hP]
    · by_cases hP : P ≤ 0
      · rw [months_to_payoff, if_pos hP]
      · have hrne : r ≠ 0 := by
          rintro rfl
          simp at hnum
          linarith
        rw [months_to_payoff, if_neg hP, if_neg hrne]
        simp only [if_pos hnum]
  · rintro ⟨hP, hrne, hnum⟩
    have hr1 : (0 : ℝ) < 1 + r := by linarith
    rw [months_to_payoff, if_neg (not_le.mpr hP), if_neg hrne]
    simp only [if_neg (not_le.mpr hnum), if_neg (not_le.mpr hr1)]
    congr 1
    have hrpos : 0 < r := lt_of_le_of_ne hr (Ne.symm hrne)
    have hfrac : 0 ≤ B * r / P := div_nonneg (mul_nonneg hB hr) hP.le
    have hnum1 : 1 - B * r / P ≤ 1 := by linarith
    have hlognum : Real.log (1 - B * r / P) ≤ 0 := Real.log_nonpos hnum.le hnum1
    have hlogr : 0 < Real.log (1 + r) := Real.log_pos (by linarith)
    exact max_eq_right (div_nonneg (by linarith) hlogr.le)

/-- C4 witness: at `B = 6`, `P = 2`, `r = 0` the payoff horizon is exactly
`B / P = 3` months. -/
theorem months_to_payoff_cases_witness : months_to_payoff 6 2 0 = some 3 := by
  have h := (months_to_payoff_cases 6 2 0 (by norm_num) le_rfl).1 ⟨rfl, by norm_num⟩
  rw [h]
  norm_num

/-! ### Lemmas about the payoff strategies -/

/-- A stable sort leaves the subsequence of elements that are pairwise
tied (all satisfying `p`, with `le` holding between any two such elements)
in input order. -/
theorem mergeSort_filter_eq {α : Type} {le : α → α → Bool}
    (trans : ∀ (a b c : α), le a b → le b c → le a c)
    (total : ∀ (a b : α), le a b || le b a)
    (l : List α) (p : α → Bool) (hp : ∀ a b, p a → p b → le a b) :
    (l.mergeSort le).filter p = l.filter p := by
  have hpw : (l.filter p).Pairwise (le · ·) :=
    List.pairwise_of_forall_mem_list
      (fun a ha b hb => hp a b (List.mem_filter.mp ha).2 (List.mem_filter.mp hb).2)
  have hsub : (l.filter p).Sublist (l.mergeSort le) :=
    List.sublist_mergeSort trans total hpw (List.filter_sublist l)
  have hsub2 : (l.filter p).Sublist ((l.mergeSort le).filter p) := by
    have := hsub.filter p
    rwa [List.filter_filter, (by simp : (fun a => p a && p a) = p)] at this
  have hlen : ((l.mergeSort le).filter p).length = (l.filter p).length :=
    ((List.mergeSort_perm l le).filter p).length_eq
  exact (hsub2.eq_of_length hlen.symm).symm

theorem rate_le_trans : ∀ (a b c : DebtAccount),
    decide (b.interest_rate ≤ a.interest_rate) →
    decide (c.interest_rate ≤ b.interest_rate) →
    decide (c.interest_rate ≤ a.interest_rate) := by
  intro a b c h1 h2
  simp only [decide_eq_true_eq] at *
  exact le_trans h2 h1

theorem rate_le_total : ∀ (a b : DebtAccount),
    decide (b.interest_rate ≤ a.interest_rate)
      || decide (a.interest_rate ≤ b.interest_rate) := by
  intro a b
  simp only [Bool.or_eq_true, decide_eq_true_eq]
  exact (le_total b.interest_rate a.interest_rate)

theorem balance_le_trans : ∀ (a b c : DebtAccount),
    decide (a.current_balance ≤ b.current_balance) →
    decide (b.current_balance ≤ c.current_balance) →
    decide (a.current_balance ≤ c.current_balance) := by
  intro a b c h1 h2
  simp only [decide_eq_true_eq] at *
  exact le_trans h1 h2

theorem balance_le_total : ∀ (a b : DebtAccount),
    decide (a.current_balance ≤ b.current_balance)
      || decide (b.current_balance ≤ a.current_balance) := by
  intro a b
  simp only [Bool.or_eq_true, decide_eq_true_eq]
  exact (le_total a.current_balance b.current_balance)

theorem strategyEntry_account (accounts : List DebtAccount) (b : ℚ)
    (r : String) (p : ℕ × DebtAccount) :
    (strategyEntry accounts b r p).account = p.2.name := rfl

theorem strategy_map_account (accounts : List DebtAccount) (b : ℚ)
    (r : String) (l : List DebtAccount) :
    ((l.enum.map (strategyEntry accounts b r)).map (·.account))
      = l.map (·.name) := by
  rw [List.map_map]
  have h1 : ((fun x : PlanEntry => x.account) ∘ strategyEntry accounts b r)
      = (fun a : DebtAccount => a.name) ∘ Prod.snd := rfl
  rw [h1, ← List.map_map, List.enum_map_snd]

theorem enumFrom_map_payment (accounts : List DebtAccount) (b : ℚ) (r : String) :
    ∀ (l : List DebtAccount) (n : ℕ),
      ((List.enumFrom (n + 1) l).map (strategyEntry accounts b r)).map
          (·.monthly_payment)
        = l.map (·.minimum_payment)
  | [], n => rfl
  | a :: l, n => by
    rw [List.enumFrom_cons]
    simp only [List.map_cons, List.cons.injEq]
    constructor
    · simp [strategyEntry]
    · exact enumFrom_map_payment accounts b r l (n + 1)

/-- C5: `avalanche_strategy` processes accounts sorted by interest rate
descending and `snowball_strategy` by current balance ascending, ties broken
by original input order (Python `sorted` is stable); the plan entries follow
exactly that order (empty when the budget guard fires). -/
theorem strategy_sort_order (accounts : List DebtAccount) (b : ℚ) :
    ((sortByRateDesc accounts).Perm accounts) ∧
    (sortByRateDesc accounts).Pairwise
      (fun a c => c.interest_rate ≤ a.interest_rate) ∧
    (∀ k : ℚ, (sortByRateDesc accounts).filter
          (fun a => decide (a.interest_rate = k))
        = accounts.filter (fun a => decide (a.interest_rate = k))) ∧
    ((avalanche_strategy accounts b).map (·.account)
        = if b ≤ 0 then [] else (sortByRateDesc accounts).map (·.name)) ∧
    ((sortByBalanceAsc accounts).Perm accounts) ∧
    (sortByBalanceAsc accounts).Pairwise
      (fun a c => a.current_balance ≤ c.current_balance) ∧
    (∀ k : ℚ, (sortByBalanceAsc accounts).filter
          (fun a => decide (a.current_balance = k))
        = accounts.filter (fun a => decide (a.current_balance = k))) ∧
    ((snowball_strategy accounts b).map (·.account)
        = if b ≤ 0 then [] else (sortByBalanceAsc accounts).map (·.name)) := by
  refine ⟨List.mergeSort_perm accounts _, ?_, ?_, ?_,
    List.mergeSort_perm accounts _, ?_, ?_, ?_⟩
  · exact (List.sorted_mergeSort rate_le_trans rate_le_total accounts).imp
      (fun h => by simpa using h)
  · intro k
    exact mergeSort_filter_eq rate_le_trans rate_le_total accounts _
      (fun x y hx hy => by
        simp only [decide_eq_true_eq] at *
        rw [hx, hy])
  · by_cases hb : b ≤ 0
    · simp [avalanche_strategy, hb]
    · rw [if_neg hb, avalanche_strategy, if_neg hb]
      exact strategy_map_account accounts b _ _
  · exact (List.sorted_mergeSort balance_le_trans balance_le_total accounts).imp
      (fun h => by simpa using h)
  · intro k
    exact mergeSort_filter_eq balance_le_trans balance_le_total accounts _
      (fun x y hx hy => by
        simp only [decide_eq_true_eq] at *
        rw [hx, hy])
  · by_cases hb : b ≤ 0
    · simp [snowball_strategy, hb]
    · rw [if_neg hb, snowball_strategy, if_neg hb]
      exact strategy_map_account accounts b _ _

/-- C3 (amended): for every non-empty account list and every positive
monthly budget, in both strategies the first account in sorted order is
assigned `minimum_payment + (monthly_budget - sum of all minimum payments)`
and every other account exactly its own minimum payment; a negative surplus
(budget below the sum of minimums, but positive) is not corrected. -/
theorem strategies_surplus_to_first (accounts : List DebtAccount) (b : ℚ)
    (hne : accounts ≠ []) (hb : 0 < b) :
    (∃ a rest, sortByRateDesc accounts = a :: rest ∧
      (avalanche_strategy accounts b).map (·.monthly_payment)
        = (a.minimum_payment + (b - totalMinPayments accounts))
            :: rest.map (·.minimum_payment)) ∧
    (∃ a rest, sortByBalanceAsc accounts = a :: rest ∧
      (snowball_strategy accounts b).map (·.monthly_payment)
        = (a.minimum_payment + (b - totalMinPayments accounts))
            :: rest.map (·.minimum_payment)) := by
  have hblt : ¬ b ≤ 0 := not_le.mpr hb
  constructor
  · obtain ⟨a, rest, hs⟩ : ∃ a rest, sortByRateDesc accounts = a :: rest := by
      rcases h : sortByRateDesc accounts with _ | ⟨a, rest⟩
      · exfalso
        have hp : (sortByRateDesc accounts).Perm accounts :=
          List.mergeSort_perm accounts _
        rw [h] at hp
        exact hne hp.symm.eq_nil
      · exact ⟨a, rest, rfl⟩
    refine ⟨a, rest, hs, ?_⟩
    rw [avalanche_strategy, if_neg hblt, hs, List.enum_cons]
    simp only [List.map_cons, List.cons.injEq]
    exact ⟨by simp [strategyEntry], enumFrom_map_payment accounts b _ rest 0⟩
  · obtain ⟨a, rest, hs⟩ : ∃ a rest, sortByBalanceAsc accounts = a :: rest := by
      rcases h : sortByBalanceAsc accounts with _ | ⟨a, rest⟩
      · exfalso
        have hp : (sortByBalanceAsc accounts).Perm accounts :=
          List.mergeSort_perm accounts _
        rw [h] at hp
        exact hne hp.symm.eq_nil
      · exact ⟨a, rest, rfl⟩
    refine ⟨a, rest, hs, ?_⟩
    rw [snowball_strategy, if_neg hblt, hs, List.enum_cons]
    simp only [List.map_cons, List.cons.injEq]
    exact ⟨by simp [strategyEntry], enumFrom_map_payment accounts b _ rest 0⟩

/-- C3 counterexample: for the non-positive budget `0` the strategies return
an empty plan, so no account — in particular not the first in sorted
order — is assigned any payment, refuting the claim for arbitrary
budgets. -/
theorem strategies_zero_budget_counterexample :
    (avalanche_strategy [acctX] 0).map (·.monthly_payment) = [] ∧
    (snowball_strategy [acctX] 0).map (·.monthly_payment) = [] ∧
    ([] : List ℚ)
      ≠ [acctX.minimum_payment + (0 - totalMinPayments [acctX])] := by
  refine ⟨?_, ?_, by simp⟩ <;>
    simp [avalanche_strategy, snowball_strategy]

/-- C3 witness: one account with minimum payment 10 and budget 5 (surplus
`5 - 10 = -5`): the single sorted account is assigned `10 + (5 - 10) = 5`,
uncorrected. -/
theorem strategies_surplus_to_first_witness :
    (avalanche_strategy [acctX] 5).map (·.monthly_payment) = [5] ∧
    (snowball_strategy [acctX] 5).map (·.monthly_payment) = [5] := by
  obtain ⟨⟨a, rest, hs, hmap⟩, ⟨a2, rest2, hs2, hmap2⟩⟩ :=
    strategies_surplus_to_first [acctX] 5 (by simp) (by norm_num)
  rw [sortByRateDesc, List.mergeSort_singleton] at hs
  rw [sortByBalanceAsc, List.mergeSort_singleton] at hs2
  injection hs with ha hrest
  injection hs2 with ha2 hrest2
  subst ha hrest ha2 hrest2
  rw [hmap, hmap2]
  norm_num [acctX, totalMinPayments]

theorem avalanche_acctX :
    avalanche_strategy [acctX] 10
      = [strategyEntry [acctX] 10
          "highest interest rate first (saves most interest)" (0, acctX)] := by
  rw [avalanche_strategy, if_neg (by norm_num)]
  rw [show sortByRateDesc [acctX] = [acctX] from List.mergeSort_singleton acctX]
  rfl

theorem acctX_months_none :
    (strategyEntry [acctX] 10
      "highest interest rate first (saves most interest)"
      (0, acctX)).months_to_payoff = none := by
  simp only [strategyEntry]
  norm_num [months_to_payoff, acctX, totalMinPayments,
    DebtAccount.monthly_interest_rate]

/-- C2 (code bug): with a payment that never covers the monthly interest
(`1 - B*r/P = 1 - 1000*0.02/10 = -1 ≤ 0`), the infinite months-to-payoff is
produced and stored in the plan (`[none]`), but `payoff_timeline` does not
return it: the total-interest projection fails (`int(float('inf'))` raises
`OverflowError`), modelled by the `none` result. -/
theorem payoff_timeline_overflow :
    (avalanche_strategy [acctX] 10).map (·.months_to_payoff) = [none] ∧
    payoff_timeline [acctX] 10 "avalanche" = none := by
  constructor
  · rw [avalanche_acctX]
    simp only [List.map_cons, List.map_nil, acctX_months_none]
  · rw [payoff_timeline, if_pos rfl, timelineFromPlan]
    have hproj : project_total_interest (avalanche_strategy [acctX] 10) = none := by
      rw [avalanche_acctX, project_total_interest]
      simp [acctX_months_none]
    rw [hproj]

/-! ### Evaluation of the detector on the fixtures -/

theorem expenseTxs_txs3 : expenseTxs txs3 = txs3 := by
  norm_num [expenseTxs, txs3, Transaction.is_expense]

theorem group_txs3 : groupByMerchant txs3 = [("A", txs3)] := by
  norm_num [groupByMerchant, txs3, insertTxn]

theorem sortByDate_txs3 : sortByDate txs3 = txs3 :=
  List.mergeSort_of_sorted (by decide)

theorem gaps_txs3 : dateGaps (txs3.map (·.date)) = [30, 30] := by
  norm_num [txs3, dateGaps]

theorem stdevGaps_30_30 : stdevGaps [30, 30] = 0 := by
  rw [stdevGaps, if_pos (by norm_num)]
  norm_num [sampleVariance, listMean]

theorem processGroup_txs3 :
    processGroup 3 0.05 "A" txs3 = some ("A", groupEntry "A" txs3) := by
  refine processGroup_eq_some_iff.mpr ⟨by norm_num [txs3], ?_, ?_, ?_,
    by rw [sortByDate_txs3]⟩
  · rw [sortByDate_txs3, gaps_txs3]
    simp
  · rw [sortByDate_txs3, gaps_txs3, stdevGaps_30_30]
    norm_num [listMean]
  · rw [sortByDate_txs3]
    norm_num [txs3, listMax, listMin, qMean, List.foldl]

theorem find_recurring_txs3 :
    find_recurring txs3 3 0.05 3 = [("A", groupEntry "A" txs3)] := by
  rw [find_recurring]
  rw [expenseTxs_txs3, group_txs3]
  simp only [List.filterMap_cons, List.filterMap_nil, processGroup_txs3]
  rw [sortByConfidence, List.mergeSort_singleton]

theorem expenseTxs_txs0 : expenseTxs txs0 = txs0 := by
  norm_num [expenseTxs, txs0, Transaction.is_expense]

theorem group_txs0 : groupByMerchant txs0 = [("A", txs0)] := by
  norm_num [groupByMerchant, txs0, insertTxn]

theorem sortByDate_txs0 : sortByDate txs0 = txs0 :=
  List.mergeSort_of_sorted (by decide)

theorem gaps_txs0 : dateGaps (txs0.map (·.date)) = [0, 0] := by
  norm_num [txs0, dateGaps]

theorem stdevGaps_0_0 : stdevGaps [0, 0] = 0 := by
  rw [stdevGaps, if_pos (by norm_num)]
  norm_num [sampleVariance, listMean]

theorem processGroup_txs0 :
    processGroup 3 0.05 "A" txs0 = some ("A", groupEntry "A" txs0) := by
  refine processGroup_eq_some_iff.mpr ⟨by norm_num [txs0], ?_, ?_, ?_,
    by rw [sortByDate_txs0]⟩
  · rw [sortByDate_txs0, gaps_txs0]
    simp
  · rw [sortByDate_txs0, gaps_txs0, stdevGaps_0_0]
    norm_num [listMean]
  · rw [sortByDate_txs0]
    norm_num [txs0, listMax, listMin, qMean, List.foldl]

theorem find_recurring_txs0 :
    find_recurring txs0 3 0.05 3 = [("A", groupEntry "A" txs0)] := by
  rw [find_recurring]
  rw [expenseTxs_txs0, group_txs0]
  simp only [List.filterMap_cons, List.filterMap_nil, processGroup_txs0]
  rw [sortByConfidence, List.mergeSort_singleton]

theorem groupEntry_txs0_interval : (groupEntry "A" txs0).interval_days = 0 := by
  simp only [groupEntry, gaps_txs0]
  norm_num [listMean]

theorem find_recurring_nil : find_recurring [] 3 0.05 3 = [] := by
  rw [find_recurring]
  simp [groupByMerchant, expenseTxs, sortByConfidence]

theorem analyze_gaps_nil : analyze_gaps [] = none := by
  rw [analyze_gaps]
  simp [expenseTxs]

theorem expenseTxs_txsG : expenseTxs txsG = txsG := by
  norm_num [expenseTxs, txsG, Transaction.is_expense]

theorem group_txsG :
    groupByMerchant txsG = [("A", grpGA), ("B", [⟨100, "B", 5, "Coffee"⟩])] := by
  norm_num [groupByMerchant, txsG, insertTxn, grpGA]
  decide

theorem sortByDate_grpGA : sortByDate grpGA = grpGA :=
  List.mergeSort_of_sorted (by decide)

theorem gaps_grpGA : dateGaps (grpGA.map (·.date)) = [30] := by
  norm_num [grpGA, dateGaps]

theorem stdevGaps_single : stdevGaps [30] = 0 := by
  rw [stdevGaps, if_neg (by norm_num)]

theorem processGroup_grpGA :
    processGroup 2 0.05 "A" grpGA = some ("A", groupEntry "A" grpGA) := by
  refine processGroup_eq_some_iff.mpr ⟨by norm_num [grpGA], ?_, ?_, ?_,
    by rw [sortByDate_grpGA]⟩
  · rw [sortByDate_grpGA, gaps_grpGA]
    simp
  · rw [sortByDate_grpGA, gaps_grpGA, stdevGaps_single]
    norm_num [listMean]
  · rw [sortByDate_grpGA]
    norm_num [grpGA, listMax, listMin, qMean, List.foldl]

theorem processGroup_grpB_two :
    processGroup 2 0.05 "B" [⟨100, "B", 5, "Coffee"⟩] = none := by
  rw [processGroup]
  norm_num

theorem processGroup_grpGA_three :
    processGroup 3 0.05 "A" grpGA = none := by
  rw [processGroup]
  norm_num [grpGA]

theorem processGroup_grpB_three :
    processGroup 3 0.05 "B" [⟨100, "B", 5, "Coffee"⟩] = none := by
  rw [processGroup]
  norm_num

theorem find_recurring_txsG_two :
    find_recurring txsG 2 0.05 3 = [("A", groupEntry "A" grpGA)] := by
  rw [find_recurring]
  rw [expenseTxs_txsG, group_txsG]
  simp only [List.filterMap_cons, List.filterMap_nil, processGroup_grpGA,
    processGroup_grpB_two]
  rw [sortByConfidence, List.mergeSort_singleton]

theorem find_recurring_txsG_default :
    find_recurring txsG 3 0.05 3 = [] := by
  rw [find_recurring]
  rw [expenseTxs_txsG, group_txsG]
  simp only [List.filterMap_cons, List.filterMap_nil, processGroup_grpGA_three,
    processGroup_grpB_three]
  rw [sortByConfidence, List.mergeSort_nil]

theorem groupEntry_grpGA_count : (groupEntry "A" grpGA).count = 2 := by
  simp [groupEntry, grpGA]

theorem groupEntry_grpGA_interval : (groupEntry "A" grpGA).interval_days = 30 := by
  simp only [groupEntry, gaps_grpGA]
  norm_num [listMean]

theorem groupEntry_grpGA_last : (groupEntry "A" grpGA).last_date = 30 := by
  simp [groupEntry, grpGA, List.getLastI]

theorem groupEntry_grpGA_amount : (groupEntry "A" grpGA).amount = 10 := by
  simp only [groupEntry, grpGA]
  norm_num [qMean]

theorem analyze_gaps_txsG :
    analyze_gaps txsG
      = some [{ merchant := "A", last_occurrence := 30, days_since := 70,
                expected_interval := 30, status := "possibly cancelled",
                avg_monthly_impact := 10 }] := by
  rw [analyze_gaps, expenseTxs_txsG]
  have hmax : (txsG.map (·.date)).max? = some 100 := by
    norm_num [txsG, List.max?, List.foldl, max_def]
  rw [hmax]
  simp only [find_recurring_txsG_two, List.mapM_cons, List.mapM_nil,
    groupEntry_grpGA_last, groupEntry_grpGA_interval, groupEntry_grpGA_amount]
  norm_num [List.mergeSort_singleton]

theorem expenseTxs_txs7 : expenseTxs txs7 = txs7 := by
  norm_num [expenseTxs, txs7, Transaction.is_expense]

theorem group_txs7 : groupByMerchant txs7 = [("A", txs7)] := by
  norm_num [groupByMerchant, txs7, insertTxn]

theorem sortByDate_txs7 : sortByDate txs7 = txs7 :=
  List.mergeSort_of_sorted (by decide)

theorem gaps_txs7 : dateGaps (txs7.map (·.date)) = [20, 40, 30] := by
  norm_num [txs7, dateGaps]

theorem stdevGaps_txs7 : stdevGaps [20, 40, 30] = 10 := by
  rw [stdevGaps, if_pos (by norm_num)]
  have hv : sampleVariance [20, 40, 30] = 100 := by
    norm_num [sampleVariance, listMean]
  rw [hv, show ((100 : ℚ) : ℝ) = (10 : ℝ) ^ 2 by norm_num]
  exact Real.sqrt_sq (by norm_num)

theorem amountVar_txs7 :
    (listMax (txs7.map (·.amount)) - listMin (txs7.map (·.amount)))
      / qMean (txs7.map (·.amount)) = 396 / 103 := by
  norm_num [txs7, listMax, listMin, qMean, List.foldl]

theorem processGroup_txs7 :
    processGroup 3 4 "A" txs7 = some ("A", groupEntry "A" txs7) := by
  refine processGroup_eq_some_iff.mpr ⟨by norm_num [txs7], ?_, ?_, ?_,
    by rw [sortByDate_txs7]⟩
  · rw [sortByDate_txs7, gaps_txs7]
    simp
  · rw [sortByDate_txs7, gaps_txs7, stdevGaps_txs7]
    norm_num [listMean]
  · rw [sortByDate_txs7, amountVar_txs7]
    norm_num

theorem find_recurring_txs7 :
    find_recurring txs7 3 4 3 = [("A", groupEntry "A" txs7)] := by
  rw [find_recurring]
  rw [expenseTxs_txs7, group_txs7]
  simp only [List.filterMap_cons, List.filterMap_nil, processGroup_txs7]
  rw [sortByConfidence, List.mergeSort_singleton]

theorem groupEntry_txs7_confidence_neg :
    (groupEntry "A" txs7).confidence < 0 := by
  simp only [groupEntry, gaps_txs7, stdevGaps_txs7, amountVar_txs7]
  have hlen : txs7.length = 4 := by norm_num [txs7]
  rw [hlen, calcConfidence]
  norm_num [min_def]

/-! ### Confidence bounds -/

theorem stdevGaps_nonneg (l : List ℤ) : 0 ≤ stdevGaps l := by
  rw [stdevGaps]
  split
  · exact Real.sqrt_nonneg _
  · exact le_refl 0

theorem foldl_max_init_le : ∀ (l : List ℚ) (a : ℚ), a ≤ l.foldl max a
  | [], a => le_refl a
  | b :: l, a => le_trans (le_max_left a b) (foldl_max_init_le l (max a b))

theorem foldl_min_le_init : ∀ (l : List ℚ) (a : ℚ), l.foldl min a ≤ a
  | [], a => le_refl a
  | b :: l, a => le_trans (foldl_min_le_init l (min a b)) (min_le_left a b)

theorem listMin_le_listMax {l : List ℚ} (h : l ≠ []) : listMin l ≤ listMax l := by
  match l with
  | [] => exact absurd rfl h
  | a :: rest =>
      exact le_trans (foldl_min_le_init rest a) (foldl_max_init_le rest a)

theorem qMean_pos {l : List ℚ} (h : l ≠ []) (hpos : ∀ x ∈ l, 0 < x) :
    0 < qMean l := by
  rw [qMean]
  refine div_pos (List.sum_pos l hpos h) ?_
  have : 0 < l.length := List.length_pos.mpr h
  exact_mod_cast this

theorem calcConfidence_le_100 (c : ℕ) (sd av : ℝ) (hsd : 0 ≤ sd)
    (hav : 0 ≤ av) : calcConfidence c sd av ≤ 100 := by
  have h1 : min ((c : ℝ) / 10) 1 ≤ 1 := min_le_right _ _
  have h2 : 0 ≤ min (sd / 10) 1 := le_min (by positivity) zero_le_one
  rw [calcConfidence]
  linarith

theorem calcConfidence_nonneg (c : ℕ) (sd av : ℝ)
    (hav1 : av ≤ 1) : 0 ≤ calcConfidence c sd av := by
  have h1 : 0 ≤ min ((c : ℝ) / 10) 1 := le_min (by positivity) zero_le_one
  have h2 : min (sd / 10) 1 ≤ 1 := min_le_right _ _
  rw [calcConfidence]
  linarith

theorem mem_expenseTxs_amount_pos {txs : List Transaction} {t : Transaction}
    (h : t ∈ expenseTxs txs) : 0 < t.amount := by
  rw [expenseTxs, List.mem_filter] at h
  have := h.2
  simp only [Transaction.is_expense, Bool.and_eq_true, decide_eq_true_eq] at this
  exact this.2

/-- C7 (amended): for every detected merchant group, the confidence score is
the sum of the occurrence term `min(count/10, 1) * 50`, the
interval-stability term `(1 - min(stdev_days/10, 1)) * 30` and the
*unclamped* amount-stability term `(1 - amount_variance) * 20`; the score
never exceeds 100, and lies in `[0, 100]` whenever `amount_tolerance ≤ 1`
(in particular at the default tolerance `0.05`). -/
theorem find_recurring_confidence (txs : List Transaction) (mo : ℕ) (tol : ℚ)
    (dv : ℕ) (m : String) (e : RecurringEntry)
    (hm : (m, e) ∈ find_recurring txs mo tol dv) :
    (e.confidence
        = min ((e.count : ℝ) / 10) 1 * 50
          + (1 - min (e.std_dev_days / 10) 1) * 30
          + (1 - (((e.amount_max - e.amount_min) / e.amount : ℚ) : ℝ)) * 20)
      ∧ e.confidence ≤ 100
      ∧ (tol ≤ 1 → 0 ≤ e.confidence) := by
  obtain ⟨hne, hp⟩ := mem_find_recurring_iff.mp hm
  obtain ⟨h1, h2, h3, h4, hpe⟩ := processGroup_eq_some_iff.mp hp
  injection hpe with hfst hsnd
  subst hsnd
  have hamts : (sortByDate (merchantGroup txs m)).map (·.amount) ≠ [] := by
    intro hnil
    have := (dateGaps_ne_nil_iff _).mp h2
    have hl : (sortByDate (merchantGroup txs m)).length = 0 := by
      simpa using congrArg List.length hnil
    simp [hl] at this
  have hpos : ∀ x ∈ (sortByDate (merchantGroup txs m)).map (·.amount), 0 < x := by
    intro x hx
    obtain ⟨t, ht, rfl⟩ := List.mem_map.mp hx
    have ht2 : t ∈ merchantGroup txs m := by
      have : t ∈ sortByDate (merchantGroup txs m) := ht
      rwa [sortByDate, List.mem_mergeSort] at this
    exact mem_expenseTxs_amount_pos (List.mem_filter.mp ht2).1
  have hav0 : (0 : ℚ)
      ≤ (listMax ((sortByDate (merchantGroup txs m)).map (·.amount))
          - listMin ((sortByDate (merchantGroup txs m)).map (·.amount)))
        / qMean ((sortByDate (merchantGroup txs m)).map (·.amount)) :=
    div_nonneg (sub_nonneg.mpr (listMin_le_listMax hamts))
      (qMean_pos hamts hpos).le
  refine ⟨rfl, ?_, ?_⟩
  · exact calcConfidence_le_100 _ _ _ (stdevGaps_nonneg _) (by exact_mod_cast hav0)
  · intro htol
    refine calcConfidence_nonneg _ _ _ ?_
    have : (listMax ((sortByDate (merchantGroup txs m)).map (·.amount))
          - listMin ((sortByDate (merchantGroup txs m)).map (·.amount)))
        / qMean ((sortByDate (merchantGroup txs m)).map (·.amount)) ≤ 1 :=
      le_trans h4 htol
    exact_mod_cast this

/-- C7 counterexample: with `amount_tolerance = 4` the merchant of `txs7`
(amount variance `396/103 > 1`) passes every gate, yet its confidence score
is negative, refuting "the resulting score always lies in [0, 100]". -/
theorem find_recurring_confidence_counterexample :
    ("A", groupEntry "A" txs7) ∈ find_recurring txs7 3 4 3 ∧
    (groupEntry "A" txs7).confidence < 0 := by
  refine ⟨?_, groupEntry_txs7_confidence_neg⟩
  rw [find_recurring_txs7]
  exact List.mem_cons_self _ _

/-- C7 witness: the detected merchant of `txs3` at the default tolerance
`0.05 ≤ 1` has a confidence score in `[0, 100]`. -/
theorem find_recurring_confidence_witness :
    0 ≤ (groupEntry "A" txs3).confidence ∧
    (groupEntry "A" txs3).confidence ≤ 100 := by
  have hm : ("A", groupEntry "A" txs3) ∈ find_recurring txs3 3 0.05 3 := by
    rw [find_recurring_txs3]
    exact List.mem_cons_self _ _
  have h := find_recurring_confidence txs3 3 0.05 3 "A" (groupEntry "A" txs3) hm
  exact ⟨h.2.2 (by norm_num), h.2.1⟩

/-! ### Monthly rollups -/

theorem foldl_monthly_cost :
    ∀ (l : List (String × RecurringEntry)) (acc : ℚ),
      (∀ p ∈ l, p.2.interval_days ≠ 0) →
      l.foldl
          (fun acc p =>
            acc.bind (fun total =>
              if p.2.interval_days = 0 then none
              else some (total + p.2.amount * (30 / p.2.interval_days))))
          (some acc)
        = some (acc
            + (l.map (fun p => p.2.amount * (30 / p.2.interval_days))).sum)
  | [], acc, h => by simp
  | p :: l, acc, h => by
    simp only [List.foldl_cons, Option.some_bind]
    rw [if_neg (h p (List.mem_cons_self p l))]
    rw [foldl_monthly_cost l _ (fun q hq => h q (List.mem_cons_of_mem _ hq))]
    simp [add_assoc]

/-- C9 (amended): whenever every detected recurring group has a non-zero
mean interval, `estimated_monthly_recurring` returns the sum of
`amount * (30 / interval_days)` over the detected charges; a detected
group with mean interval zero (all same-day charges) instead raises
`ZeroDivisionError` (modelled by `none`). -/
theorem estimated_monthly_eq (txs : List Transaction)
    (h : ∀ p ∈ find_recurring txs 3 0.05 3, p.2.interval_days ≠ 0) :
    estimated_monthly_recurring txs
      = some (((find_recurring txs 3 0.05 3).map
          (fun p => p.2.amount * (30 / p.2.interval_days))).sum) := by
  rw [estimated_monthly_recurring, foldl_monthly_cost _ 0 h, zero_add]

/-- C9 counterexample: three same-day charges are detected with mean
interval 0, and `estimated_monthly_recurring` then fails with a
`ZeroDivisionError` (`none`) instead of returning any sum. -/
theorem estimated_monthly_same_day_crash :
    estimated_monthly_recurring txs0 = none ∧
    ∀ q : ℚ, estimated_monthly_recurring txs0 ≠ some q := by
  have h : estimated_monthly_recurring txs0 = none := by
    rw [estimated_monthly_recurring, find_recurring_txs0]
    simp [groupEntry_txs0_interval]
  exact ⟨h, fun q hq => by rw [h] at hq; exact Option.noConfusion hq⟩

theorem groupEntry_txs3_interval : (groupEntry "A" txs3).interval_days = 30 := by
  simp only [groupEntry, gaps_txs3]
  norm_num [listMean]

theorem groupEntry_txs3_amount : (groupEntry "A" txs3).amount = 15 := by
  simp only [groupEntry, txs3]
  norm_num [qMean]

/-- C9 witness: on `txs3` every detected group has interval 30, and the
monthly-equivalent total is `15 * (30/30) = 15`. -/
theorem estimated_monthly_eq_witness :
    estimated_monthly_recurring txs3 = some 15 := by
  have h := estimated_monthly_eq txs3 (by
    rw [find_recurring_txs3]
    intro p hp
    rw [List.mem_singleton] at hp
    subst hp
    rw [groupEntry_txs3_interval]
    norm_num)
  rw [h, find_recurring_txs3]
  simp only [List.map_cons, List.map_nil, groupEntry_txs3_interval,
    groupEntry_txs3_amount]
  norm_num

/-- C8 (code bug): on the empty transaction list `find_recurring` returns
the empty result, but `analyze_gaps` raises (`max()` of an empty sequence,
modelled by `none`) instead of returning an empty list. -/
theorem empty_input_result :
    find_recurring [] 3 0.05 3 = [] ∧ analyze_gaps [] = none :=
  ⟨find_recurring_nil, analyze_gaps_nil⟩

/-- C10: `analyze_gaps` runs the detection with `min_occurrences = 2`: on
`txsG` it flags merchant `"A"`, whose group has exactly 2 occurrences,
while `find_recurring` with the default `min_occurrences = 3` reports no
merchant at all. -/
theorem analyze_gaps_uses_min_two :
    find_recurring txsG 2 0.05 3 = [("A", groupEntry "A" grpGA)] ∧
    (groupEntry "A" grpGA).count = 2 ∧
    analyze_gaps txsG
      = some [{ merchant := "A", last_occurrence := 30, days_since := 70,
                expected_interval := 30, status := "possibly cancelled",
                avg_monthly_impact := 10 }] ∧
    find_recurring txsG 3 0.05 3 = [] :=
  ⟨find_recurring_txsG_two, groupEntry_grpGA_count, analyze_gaps_txsG,
    find_recurring_txsG_default⟩

end MoneyManager
